import Mathlib

set_option maxHeartbeats 1000000

/-! Verification development for the date-reconciliation core of
`zola_page_date_setter` (`src/processing/file_data.rs`).  The definitions below
are a shallow embedding of that file: the pure reconciliation logic inlined in
`FileData::update_front_matter`, the comparison primitives, the change
detection, the `write` contract, and a model of the `toml_edit` document as an
ordered list of entries carrying their serialized text. -/

/-- Mirrors `toml_edit::Date`: a (year, month, day) triple.  The source stores
`u16`/`u8`; every use is a plain integer comparison, so `Nat` fields are
faithful. -/
structure Date where
  year : Nat
  month : Nat
  day : Nat
deriving DecidableEq, Repr

/-- Mirrors a `toml_edit::Item` as consulted by the reconciler: either a
datetime value whose calendar-date part may be absent (a TOML local time has
`date = None`), or any other item/value.  Time-of-day and offset are carried by
the source but never consulted by any comparison or branch, so they are
omitted. -/
inductive Item where
  | datetime (date : Option Date)
  | other
deriving DecidableEq, Repr

/-- Mirrors `Item::is_datetime` as used in the wrong-type check. -/
def Item.is_datetime : Item → Bool
  | Item.datetime _ => true
  | Item.other => false

/-- Mirrors `item_from_date`. -/
def item_from_date (d : Date) : Item :=
  Item.datetime (some d)

/-- Mirrors `is_less_than_date`: both operands must be datetime values carrying
a date, compared lexicographically by (year, month, day); the source's
`Ordering` match is rendered as the equivalent comparison chain. -/
def is_less_than_date (a b : Item) : Bool :=
  match a, b with
  | Item.datetime (some a), Item.datetime (some b) =>
    if a.year < b.year then true
    else if a.year = b.year then
      if a.month < b.month then true
      else if a.month = b.month then decide (a.day < b.day)
      else false
    else false
  | _, _ => false

/-- Mirrors `is_equal_date`: both operands must be datetime values carrying a
date, with all three fields equal. -/
def is_equal_date (a b : Item) : Bool :=
  match a, b with
  | Item.datetime (some a), Item.datetime (some b) =>
    decide (a.year = b.year) && decide (a.month = b.month) && decide (a.day = b.day)
  | _, _ => false

/-- Mirrors `is_less_than_or_equal_date`. -/
def is_less_than_or_equal_date (a b : Item) : Bool :=
  is_less_than_date a b || is_equal_date a b

/-- Propositional form of the lexicographic strict order on dates. -/
def dlt (a b : Date) : Prop :=
  a.year < b.year ∨ (a.year = b.year ∧ (a.month < b.month ∨ (a.month = b.month ∧ a.day < b.day)))

/-- Propositional form of field-wise date equality. -/
def deq (a b : Date) : Prop :=
  a.year = b.year ∧ a.month = b.month ∧ a.day = b.day

/-- Propositional form of the lexicographic order-or-equality on dates. -/
def dle (a b : Date) : Prop :=
  dlt a b ∨ deq a b

instance (a b : Date) : Decidable (dlt a b) := by
  unfold dlt; infer_instance

instance (a b : Date) : Decidable (deq a b) := by
  unfold deq; infer_instance

instance (a b : Date) : Decidable (dle a b) := by
  unfold dle; infer_instance

theorem lt_spec (a b : Date) :
    is_less_than_date (item_from_date a) (item_from_date b) = decide (dlt a b) := by
  simp only [is_less_than_date, item_from_date, dlt]
  split_ifs with h1 h2 h3 h4 <;> simp_all

theorem eq_spec (a b : Date) :
    is_equal_date (item_from_date a) (item_from_date b) = decide (deq a b) := by
  simp only [is_equal_date, item_from_date, deq]
  simp [Bool.and_assoc]

theorem le_spec (a b : Date) :
    is_less_than_or_equal_date (item_from_date a) (item_from_date b) = decide (dle a b) := by
  simp only [is_less_than_or_equal_date, lt_spec, eq_spec]
  by_cases h1 : dlt a b <;> by_cases h2 : deq a b <;> simp [h1, h2, dle]

theorem item_from_date_inj (a b : Date) : item_from_date a = item_from_date b ↔ deq a b := by
  constructor
  · intro h
    simp only [item_from_date, Item.datetime.injEq, Option.some.injEq] at h
    subst h
    exact ⟨rfl, rfl, rfl⟩
  · intro h
    obtain ⟨h1, h2, h3⟩ := h
    obtain ⟨ay, am, ad⟩ := a
    obtain ⟨by1, bm, bd⟩ := b
    simp only at h1 h2 h3
    subst h1; subst h2; subst h3
    rfl

/-- One warning event per sanitization rule in `update_front_matter`. -/
inductive Warning where
  | nonDateDate
  | nonDateUpdated
  | updatedBeforeDate
  | dateInFuture
  | updatedInFuture
deriving DecidableEq, Repr

/-- Step 1 of `update_front_matter` for one field: a present value that is not
a datetime is discarded. -/
def sanitize_type (v : Option Item) : Option Item :=
  match v with
  | some d => if d.is_datetime then some d else none
  | none => none

/-- Step 2 of `update_front_matter`: if both values are present and
`updated < date`, `updated` is discarded. -/
def sanitize_order (date updated : Option Item) : Option Item :=
  match updated, date with
  | some u, some d => if is_less_than_date u d then none else some u
  | u, _ => u

/-- First half of Step 3 of `update_front_matter`: `date` is discarded when it
lies in the future. -/
def sanitize_future_date (date : Option Item) (TODAY : Item) : Option Item :=
  match date with
  | some d => if is_less_than_date TODAY d then none else some d
  | none => none

/-- Second half of Step 3 of `update_front_matter`: when `updated` lies in the
future the source clears `date` (not `updated`), mirrored here exactly. -/
def sanitize_future_by_updated (date updated : Option Item) (TODAY : Item) : Option Item :=
  match updated with
  | some u => if is_less_than_date TODAY u then none else date
  | none => date

/-- The sanitized (date, updated) pair reaching the decision table of
`update_front_matter`: Step 1 on both fields, then Step 2, then Step 3. -/
def sanitized (org_date org_updated : Option Item) (today : Date) : Option Item × Option Item :=
  let TODAY := item_from_date today
  let date1 := sanitize_type org_date
  let updated1 := sanitize_type org_updated
  let updated2 := sanitize_order date1 updated1
  let date2 := sanitize_future_date date1 TODAY
  let date3 := sanitize_future_by_updated date2 updated2 TODAY
  (date3, updated2)

/-- The warnings logged by the sanitization steps of `update_front_matter`, in
source order. -/
def sanitize_warnings (org_date org_updated : Option Item) (today : Date) : List Warning :=
  let TODAY := item_from_date today
  let w1 : List Warning :=
    match org_date with
    | some d => if d.is_datetime then [] else [Warning.nonDateDate]
    | none => []
  let w2 : List Warning :=
    match org_updated with
    | some u => if u.is_datetime then [] else [Warning.nonDateUpdated]
    | none => []
  let date1 := sanitize_type org_date
  let updated1 := sanitize_type org_updated
  let w3 : List Warning :=
    match updated1, date1 with
    | some u, some d => if is_less_than_date u d then [Warning.updatedBeforeDate] else []
    | _, _ => []
  let updated2 := sanitize_order date1 updated1
  let w4 : List Warning :=
    match date1 with
    | some d => if is_less_than_date TODAY d then [Warning.dateInFuture] else []
    | none => []
  let w5 : List Warning :=
    match updated2 with
    | some u => if is_less_than_date TODAY u then [Warning.updatedInFuture] else []
    | none => []
  w1 ++ w2 ++ w3 ++ w4 ++ w5

/-- Step 4 of `update_front_matter`: the decision table matching on
`(last_edit_date, date, updated)`. -/
def decision (last_edit_date : Option Date) (date updated : Option Item) (TODAY : Item) :
    Item × Option Item :=
  match last_edit_date, date, updated with
  | none, none, _ => (TODAY, none)
  | none, some date, _ =>
    if is_equal_date date TODAY then (date, none) else (date, some TODAY)
  | some last, none, _ =>
    let last := item_from_date last
    if is_equal_date last TODAY then (last, none) else (last, some TODAY)
  | some last, some date, none =>
    let last := item_from_date last
    if is_less_than_or_equal_date last date then (date, none) else (date, some TODAY)
  | some last, some date, some updated =>
    let last := item_from_date last
    if is_less_than_or_equal_date last updated then (date, some updated)
    else (date, some TODAY)

/-- Step 5 of `update_front_matter`: the `is_new_same_as_org` computation,
comparing the literal original values against the new pair. -/
def same_as_org (org_date org_updated : Option Item) (new_date : Item)
    (new_updated : Option Item) : Bool :=
  let is_date_same :=
    match org_date with
    | some d => is_equal_date d new_date
    | none => false
  let did_update_start_and_end_none :=
    org_updated.isNone && (org_updated.isNone == new_updated.isNone)
  let did_updated_start_some_and_end_same_value :=
    match org_updated, new_updated with
    | some ou, some nu => is_equal_date ou nu
    | _, _ => false
  let is_update_same :=
    did_update_start_and_end_none || did_updated_start_some_and_end_same_value
  is_date_same && is_update_same

/-- The full result of the pure reconciliation core of `update_front_matter`. -/
structure Reconciled where
  new_date : Item
  new_updated : Option Item
  warnings : List Warning
  is_new_same_as_org : Bool
deriving DecidableEq, Repr

/-- The `changed` flag the reconciliation produces on a freshly constructed
record (`changed` starts `false` and is set exactly when the new pair differs
from the original). -/
def Reconciled.changed (r : Reconciled) : Bool :=
  !r.is_new_same_as_org

/-- The pure core of `FileData::update_front_matter`: sanitization (Steps 1-3),
the decision table (Step 4) and change detection (Step 5), with `today`
injected as an argument in place of the process-wide `TODAY`. -/
def update_values (last_edit_date : Option Date) (org_date org_updated : Option Item)
    (today : Date) : Reconciled :=
  let TODAY := item_from_date today
  let s := sanitized org_date org_updated today
  let nd := decision last_edit_date s.1 s.2 TODAY
  { new_date := nd.1
    new_updated := nd.2
    warnings := sanitize_warnings org_date org_updated today
    is_new_same_as_org := same_as_org org_date org_updated nd.1 nd.2 }

/-- One key/value entry of a front-matter document, carrying the exact text it
serializes to.  Modelled from the spec: the `toml_edit::Document` round-trip
contract of section 6 (parse, mutate two keys, reserialize with all other
content byte-identical) is represented by an ordered entry list whose
untouched entries keep their text. -/
structure Entry where
  key : String
  item : Item
  text : String
deriving DecidableEq, Repr

/-- A front-matter document as an ordered list of entries. -/
structure Doc where
  entries : List Entry
deriving DecidableEq, Repr

/-- Mirrors `doc.get(key)`. -/
def Doc.get (doc : Doc) (key : String) : Option Item :=
  match doc.entries.find? (fun e => e.key == key) with
  | some e => some e.item
  | none => none

/-- Modelled from the spec: the serialized text of a freshly written `date` or
`updated` entry.  No claim constrains the rendering of the two mutated keys,
only that untouched entries keep their bytes. -/
def render_entry (key : String) (it : Item) : String :=
  let v : String :=
    match it with
    | Item.datetime (some d) =>
      toString d.year ++ "-" ++ toString d.month ++ "-" ++ toString d.day
    | Item.datetime none => "(time)"
    | Item.other => "(other)"
  key ++ " = " ++ v ++ "\n"

/-- Mirrors `doc.entry(key)`: replace the value of an occupied entry in place,
or insert a fresh entry when vacant. -/
def set_entry (doc : Doc) (key : String) (it : Item) : Doc :=
  if doc.entries.any (fun e => e.key == key) then
    ⟨doc.entries.map (fun e =>
      if e.key == key then { e with item := it, text := render_entry key it } else e)⟩
  else
    ⟨doc.entries ++ [{ key := key, item := it, text := render_entry key it }]⟩

/-- Mirrors `doc.remove(key)`. -/
def remove_entry (doc : Doc) (key : String) : Doc :=
  ⟨doc.entries.filter (fun e => !(e.key == key))⟩

/-- The document mutation block of `update_front_matter`: write `new_date`
under `date`, then write or remove `updated`. -/
def apply_changes (doc : Doc) (new_date : Item) (new_updated : Option Item) : Doc :=
  let doc := set_entry doc "date" new_date
  match new_updated with
  | some nu => set_entry doc "updated" nu
  | none => remove_entry doc "updated"

/-- Mirrors `Doc::to_string`: the concatenation of every entry's text. -/
def Doc.toString (doc : Doc) : String :=
  String.join (doc.entries.map (fun e => e.text))

/-- Mirrors `FileData` (the path is kept as a plain string). -/
structure FileData where
  changed : Bool
  path : String
  front_matter : String
  content : String
deriving DecidableEq, Repr

/-- Mirrors `FileData::new`. -/
def FileData.new (path front_matter content : String) : FileData :=
  { changed := false, path := path, front_matter := front_matter, content := content }

/-- Mirrors `FileData::is_changed`. -/
def FileData.is_changed (fd : FileData) : Bool :=
  fd.changed

/-- The text assembled and written by `FileData::write` when it succeeds. -/
def write_output (fd : FileData) : String :=
  let s := "+++" ++ fd.front_matter ++ "+++\n"
  let s := if fd.content = "" then s else s ++ "\n"
  s ++ fd.content

/-- Mirrors `FileData::write`: refuse with an error when nothing changed,
otherwise produce the serialized file text. -/
def FileData.write (fd : FileData) : Except String String :=
  if !fd.is_changed then
    Except.error ("No change detected. Write aborted. Path: " ++ fd.path)
  else
    Except.ok (write_output fd)

/-- Mirrors `FileData::update_front_matter` given the parsed document `doc` of
`fd.front_matter` (the source's `debug_assert_eq!(doc.to_string(), toml)`
records that parsing round-trips): reconcile, and only on a detected change
set the flag and reserialize. -/
def FileData.update_front_matter (fd : FileData) (doc : Doc)
    (last_edit_date : Option Date) (today : Date) : FileData :=
  let org_date := doc.get "date"
  let org_updated := doc.get "updated"
  let r := update_values last_edit_date org_date org_updated today
  if r.is_new_same_as_org then fd
  else
    { fd with
      changed := true
      front_matter := (apply_changes doc r.new_date r.new_updated).toString }

/-- An item that actually carries a calendar date. -/
def is_cal_date : Item → Bool
  | Item.datetime (some _) => true
  | _ => false

/-- A metadata slot that is absent, a non-datetime value, or a datetime
carrying a calendar date; it rules out only datetime values without a date
part (TOML local times). -/
def good_slot : Option Item → Bool
  | some (Item.datetime none) => false
  | _ => true

theorem deq_iff_eq (a b : Date) : deq a b ↔ a = b := by
  cases a; cases b; simp [deq, Date.mk.injEq]

theorem dle_refl (a : Date) : dle a a :=
  Or.inr ⟨rfl, rfl, rfl⟩

theorem dle_total (a b : Date) : ¬ dlt a b → dle b a := by
  simp only [dle, dlt, deq]; omega

theorem dlt_of_not_dle (a b : Date) : ¬ dle a b → dlt b a := by
  simp only [dle, dlt, deq]; omega

theorem dle_trans (a b c : Date) : dle a b → dle b c → dle a c := by
  simp only [dle, dlt, deq]; omega

theorem lt_left_not_cal (a b : Item) (h : is_cal_date a = false) :
    is_less_than_date a b = false := by
  cases a with
  | datetime o =>
    cases o with
    | none => cases b with
      | datetime o2 => cases o2 <;> rfl
      | other => rfl
    | some d => simp [is_cal_date] at h
  | other => cases b with
    | datetime o2 => cases o2 <;> rfl
    | other => rfl

theorem lt_right_not_cal (a b : Item) (h : is_cal_date b = false) :
    is_less_than_date a b = false := by
  cases b with
  | datetime o =>
    cases o with
    | none => cases a with
      | datetime o2 => cases o2 <;> rfl
      | other => rfl
    | some d => simp [is_cal_date] at h
  | other => cases a with
    | datetime o2 => cases o2 <;> rfl
    | other => rfl

theorem eq_left_not_cal (a b : Item) (h : is_cal_date a = false) :
    is_equal_date a b = false := by
  cases a with
  | datetime o =>
    cases o with
    | none => cases b with
      | datetime o2 => cases o2 <;> rfl
      | other => rfl
    | some d => simp [is_cal_date] at h
  | other => cases b with
    | datetime o2 => cases o2 <;> rfl
    | other => rfl

theorem eq_right_not_cal (a b : Item) (h : is_cal_date b = false) :
    is_equal_date a b = false := by
  cases b with
  | datetime o =>
    cases o with
    | none => cases a with
      | datetime o2 => cases o2 <;> rfl
      | other => rfl
    | some d => simp [is_cal_date] at h
  | other => cases a with
    | datetime o2 => cases o2 <;> rfl
    | other => rfl

theorem le_right_not_cal (a b : Item) (h : is_cal_date b = false) :
    is_less_than_or_equal_date a b = false := by
  unfold is_less_than_or_equal_date
  rw [lt_right_not_cal a b h, eq_right_not_cal a b h]
  rfl

theorem update_values_new_date (l : Option Date) (d u : Option Item) (t : Date) :
    (update_values l d u t).new_date =
      (decision l (sanitized d u t).1 (sanitized d u t).2 (item_from_date t)).1 :=
  rfl

theorem update_values_new_updated (l : Option Date) (d u : Option Item) (t : Date) :
    (update_values l d u t).new_updated =
      (decision l (sanitized d u t).1 (sanitized d u t).2 (item_from_date t)).2 :=
  rfl

theorem update_values_same (l : Option Date) (d u : Option Item) (t : Date) :
    (update_values l d u t).is_new_same_as_org =
      same_as_org d u (update_values l d u t).new_date (update_values l d u t).new_updated :=
  rfl

theorem update_values_warnings (l : Option Date) (d u : Option Item) (t : Date) :
    (update_values l d u t).warnings = sanitize_warnings d u t :=
  rfl

/-- C1: the claim reads Step 3 as discarding `updated` when `updated > today`.
The source instead clears `date` (`file_data.rs` line 116): at
`last_edit = absent`, `date = 2021-01-01`, `updated = 2022-01-01`,
`today = 2021-06-01`, sanitization leaves `updated` as the future date
(so the source's own assertion `updated ≤ today` fails) while `date` is
dropped, and the decision table then outputs `new_date = today`,
`new_updated = absent` instead of keeping `date` and stamping `updated`. -/
theorem C1_future_updated_clears_date :
    (sanitized (some (item_from_date ⟨2021, 1, 1⟩)) (some (item_from_date ⟨2022, 1, 1⟩))
        ⟨2021, 6, 1⟩).1 = none ∧
    (sanitized (some (item_from_date ⟨2021, 1, 1⟩)) (some (item_from_date ⟨2022, 1, 1⟩))
        ⟨2021, 6, 1⟩).2 = some (item_from_date ⟨2022, 1, 1⟩) ∧
    (update_values none (some (item_from_date ⟨2021, 1, 1⟩))
        (some (item_from_date ⟨2022, 1, 1⟩)) ⟨2021, 6, 1⟩).new_date
      = item_from_date ⟨2021, 6, 1⟩ ∧
    (update_values none (some (item_from_date ⟨2021, 1, 1⟩))
        (some (item_from_date ⟨2022, 1, 1⟩)) ⟨2021, 6, 1⟩).new_updated = none ∧
    (update_values none (some (item_from_date ⟨2021, 1, 1⟩))
        (some (item_from_date ⟨2022, 1, 1⟩)) ⟨2021, 6, 1⟩).warnings
      = [Warning.updatedInFuture] := by
  decide

/-- C4: the claim says every present non-CalendarDate value for `date` is
discarded with a warning before the decision table.  A TOML datetime value
without a date part (a local time) is not a CalendarDate, yet it passes the
source's `is_datetime` check: no warning is emitted, the value is kept, and
reconciliation does not proceed through the absent-date branch (which would
have produced `new_date = today`). -/
theorem C4_dateless_datetime_not_sanitized :
    (update_values none (some (Item.datetime none)) none ⟨2021, 1, 1⟩).warnings = [] ∧
    (update_values none (some (Item.datetime none)) none ⟨2021, 1, 1⟩).new_date
      = Item.datetime none ∧
    (update_values none none none ⟨2021, 1, 1⟩).new_date = item_from_date ⟨2021, 1, 1⟩ ∧
    is_cal_date (Item.datetime none) = false := by
  decide

/-- C8: `FileData::write` fails exactly when `changed` is false, and succeeds
with the assembled file text exactly when `changed` is true. -/
theorem C8_write_requires_change (fd : FileData) :
    ((∃ e, fd.write = Except.error e) ↔ fd.changed = false) ∧
    (fd.changed = true → fd.write = Except.ok (write_output fd)) := by
  unfold FileData.write FileData.is_changed
  cases h : fd.changed <;> simp

/-- Witness for C8 at a concrete changed record. -/
theorem C8_write_witness :
    (FileData.mk true "p" "fm" "body").write
      = Except.ok (write_output (FileData.mk true "p" "fm" "body")) :=
  (C8_write_requires_change (FileData.mk true "p" "fm" "body")).2 rfl

/-- C9: the comparison primitives return false whenever either operand does
not carry a calendar date (including two non-date operands), and on any
calendar date `d` equality is reflexive, strict order is irreflexive, and
order-or-equality is reflexive. -/
theorem C9_comparison_primitives :
    (∀ a b : Item, is_cal_date a = false ∨ is_cal_date b = false →
      is_less_than_date a b = false ∧ is_equal_date a b = false ∧
        is_less_than_or_equal_date a b = false) ∧
    (∀ d : Date,
      is_equal_date (item_from_date d) (item_from_date d) = true ∧
      is_less_than_date (item_from_date d) (item_from_date d) = false ∧
      is_less_than_or_equal_date (item_from_date d) (item_from_date d) = true) := by
  constructor
  · intro a b h
    cases h with
    | inl h =>
      refine ⟨lt_left_not_cal a b h, eq_left_not_cal a b h, ?_⟩
      unfold is_less_than_or_equal_date
      rw [lt_left_not_cal a b h, eq_left_not_cal a b h]
      rfl
    | inr h =>
      refine ⟨lt_right_not_cal a b h, eq_right_not_cal a b h, ?_⟩
      unfold is_less_than_or_equal_date
      rw [lt_right_not_cal a b h, eq_right_not_cal a b h]
      rfl
  · intro d
    refine ⟨?_, ?_, ?_⟩
    · rw [eq_spec]
      simp [deq]
    · rw [lt_spec]
      simp only [dlt, decide_eq_false_iff_not]
      omega
    · rw [le_spec]
      simp only [decide_eq_true_eq]
      exact dle_refl d
/-- Witness for C9 applied to a non-date operand. -/
theorem C9_comparison_witness :
    is_less_than_date Item.other (item_from_date ⟨2021, 1, 1⟩) = false ∧
    is_equal_date Item.other (item_from_date ⟨2021, 1, 1⟩) = false ∧
    is_less_than_or_equal_date Item.other (item_from_date ⟨2021, 1, 1⟩) = false :=
  C9_comparison_primitives.1 Item.other (item_from_date ⟨2021, 1, 1⟩) (Or.inl rfl)

/-- C10: `changed` is false at construction, `update_front_matter` never
resets a true flag, and whenever it returns with `changed` still false the
front matter text is untouched (the document was not reserialized). -/
theorem C10_changed_flag_invariants :
    (∀ p f c, (FileData.new p f c).changed = false) ∧
    (∀ (fd : FileData) (doc : Doc) (l : Option Date) (t : Date),
      fd.changed = true → (fd.update_front_matter doc l t).changed = true) ∧
    (∀ (fd : FileData) (doc : Doc) (l : Option Date) (t : Date),
      (fd.update_front_matter doc l t).changed = false →
      (fd.update_front_matter doc l t).front_matter = fd.front_matter) := by
  refine ⟨fun p f c => rfl, ?_, ?_⟩
  · intro fd doc l t h
    simp only [FileData.update_front_matter]
    split
    · exact h
    · rfl
  · intro fd doc l t
    simp only [FileData.update_front_matter]
    split
    · intro _
      rfl
    · intro h
      simp at h

/-- Witness for C10: an already-changed record keeps its flag. -/
theorem C10_changed_flag_witness :
    ((FileData.mk true "p" "fm" "body").update_front_matter ⟨[]⟩ none ⟨2021, 1, 1⟩).changed
      = true :=
  C10_changed_flag_invariants.2.1 (FileData.mk true "p" "fm" "body") ⟨[]⟩ none ⟨2021, 1, 1⟩ rfl

theorem same_as_org_spec (org_date org_updated : Option Item) (nd : Item) (nu : Option Item) :
    same_as_org org_date org_updated nd nu = true ↔
      ((∃ d, org_date = some d ∧ is_equal_date d nd = true) ∧
       ((org_updated = none ∧ nu = none) ∨
        (∃ ou nuv, org_updated = some ou ∧ nu = some nuv ∧ is_equal_date ou nuv = true))) := by
  unfold same_as_org
  cases org_date <;> cases org_updated <;> cases nu <;>
    simp [Option.isNone]

/-- C7: the reconciliation reports no change exactly when the literal original
`date` was present and calendar-equal to `new_date`, and the original
`updated` and `new_updated` are either both absent or both present and
calendar-equal; comparisons are the calendar-date equality primitive, so value
forms that resolve to the same calendar dates do not force a rewrite. -/
theorem C7_change_detection (last : Option Date) (org_date org_updated : Option Item)
    (today : Date) :
    (update_values last org_date org_updated today).changed = false ↔
      ((∃ d, org_date = some d ∧
          is_equal_date d (update_values last org_date org_updated today).new_date = true) ∧
       ((org_updated = none ∧ (update_values last org_date org_updated today).new_updated = none) ∨
        (∃ ou nuv, org_updated = some ou ∧
          (update_values last org_date org_updated today).new_updated = some nuv ∧
          is_equal_date ou nuv = true))) := by
  rw [← same_as_org_spec org_date org_updated
    (update_values last org_date org_updated today).new_date
    (update_values last org_date org_updated today).new_updated]
  rw [← update_values_same last org_date org_updated today]
  unfold Reconciled.changed
  cases h : (update_values last org_date org_updated today).is_new_same_as_org <;> simp [h]

theorem sanitized_fst (org_date org_updated : Option Item) (today : Date) :
    (sanitized org_date org_updated today).1 =
      sanitize_future_by_updated
        (sanitize_future_date (sanitize_type org_date) (item_from_date today))
        (sanitize_order (sanitize_type org_date) (sanitize_type org_updated))
        (item_from_date today) :=
  rfl

theorem sanitized_snd (org_date org_updated : Option Item) (today : Date) :
    (sanitized org_date org_updated today).2 =
      sanitize_order (sanitize_type org_date) (sanitize_type org_updated) :=
  rfl

/-- C5: when a last-edit date is known and sanitization leaves `date` present
and `updated` absent, the decision table keeps `date` unchanged and sets
`updated` to absent when `last_edit ≤ date`, and to today otherwise. -/
theorem C5_committed_date_no_updated (l : Date) (org_date org_updated : Option Item)
    (today : Date) (d : Item)
    (hd : (sanitized org_date org_updated today).1 = some d)
    (hu : (sanitized org_date org_updated today).2 = none) :
    (update_values (some l) org_date org_updated today).new_date = d ∧
    (update_values (some l) org_date org_updated today).new_updated =
      (if is_less_than_or_equal_date (item_from_date l) d then none
       else some (item_from_date today)) := by
  rw [update_values_new_date, update_values_new_updated, hd, hu]
  unfold decision
  cases h : is_less_than_or_equal_date (item_from_date l) d <;> simp [h]

/-- Witness for C5 at Scenario C of the spec. -/
theorem C5_committed_witness :
    (update_values (some ⟨2021, 6, 1⟩) (some (item_from_date ⟨2021, 1, 1⟩)) none
        ⟨2021, 7, 1⟩).new_date = item_from_date ⟨2021, 1, 1⟩ ∧
    (update_values (some ⟨2021, 6, 1⟩) (some (item_from_date ⟨2021, 1, 1⟩)) none
        ⟨2021, 7, 1⟩).new_updated =
      (if is_less_than_or_equal_date (item_from_date ⟨2021, 6, 1⟩) (item_from_date ⟨2021, 1, 1⟩)
       then none else some (item_from_date ⟨2021, 7, 1⟩)) :=
  C5_committed_date_no_updated ⟨2021, 6, 1⟩ (some (item_from_date ⟨2021, 1, 1⟩)) none
    ⟨2021, 7, 1⟩ (item_from_date ⟨2021, 1, 1⟩) (by decide) (by decide)

/-- The keys `update_front_matter` must leave untouched. -/
def other_keys (e : Entry) : Bool :=
  !(e.key == "date") && !(e.key == "updated")

theorem filter_map_eq (l : List Entry) (f : Entry → Entry) (p : Entry → Bool)
    (hf : ∀ e, p e = true → f e = e) (hp : ∀ e, p (f e) = p e) :
    (l.map f).filter p = l.filter p := by
  induction l with
  | nil => rfl
  | cons e t ih =>
    simp only [List.map_cons, List.filter_cons, hp e]
    cases h : p e
    · simpa using ih
    · rw [hf e h]
      simpa using congrArg (fun xs => e :: xs) ih

theorem filter_filter_eq (l : List Entry) (p q : Entry → Bool)
    (h : ∀ e, p e = true → q e = true) :
    (l.filter q).filter p = l.filter p := by
  induction l with
  | nil => rfl
  | cons e t ih =>
    simp only [List.filter_cons]
    cases hq : q e
    · cases hp : p e
      · simpa [hp] using ih
      · exact absurd (h e hp) (by simp [hq])
    · simp only [List.filter_cons]
      cases hp : p e <;> simp [hp, ih]

theorem set_entry_other_keys (doc : Doc) (k : String) (it : Item)
    (hk : k = "date" ∨ k = "updated") :
    (set_entry doc k it).entries.filter other_keys = doc.entries.filter other_keys := by
  unfold set_entry
  split
  · apply filter_map_eq
    · intro e he
      have hek : (e.key == k) = false := by
        unfold other_keys at he
        have h2 := Bool.and_eq_true _ _ |>.mp he
        rcases hk with h | h <;> subst h <;> simp_all
      simp [hek]
    · intro e
      unfold other_keys
      cases hek : e.key == k <;> simp [hek]
  · rw [List.filter_append]
    have hnew : other_keys ⟨k, it, render_entry k it⟩ = false := by
      rcases hk with h | h <;> subst h <;> rfl
    simp [hnew]

theorem remove_entry_other_keys (doc : Doc) :
    (remove_entry doc "updated").entries.filter other_keys = doc.entries.filter other_keys := by
  unfold remove_entry
  apply filter_filter_eq
  intro e he
  unfold other_keys at he
  simpa using (Bool.and_eq_true _ _ |>.mp he).2

/-- C6: the document mutation of `update_front_matter` preserves, byte for
byte and in order, every entry whose key is neither `date` nor `updated`
(each entry carries its serialized text). -/
theorem C6_untouched_keys_preserved (doc : Doc) (nd : Item) (nu : Option Item) :
    (apply_changes doc nd nu).entries.filter other_keys =
      doc.entries.filter other_keys := by
  unfold apply_changes
  cases nu with
  | none =>
    rw [remove_entry_other_keys, set_entry_other_keys doc "date" nd (Or.inl rfl)]
  | some v =>
    rw [set_entry_other_keys _ "updated" v (Or.inr rfl),
      set_entry_other_keys doc "date" nd (Or.inl rfl)]

theorem sanitize_type_date (d : Date) :
    sanitize_type (some (item_from_date d)) = some (item_from_date d) :=
  rfl

theorem sanitize_order_none_right (d : Option Item) : sanitize_order d none = none := by
  cases d <;> rfl

theorem sanitize_order_none_left (u : Option Item) : sanitize_order none u = u := by
  cases u <;> rfl

theorem sanitize_order_some (d u : Item) :
    sanitize_order (some d) (some u) = if is_less_than_date u d then none else some u :=
  rfl

theorem sfd_none (T : Item) : sanitize_future_date none T = none :=
  rfl

theorem sfd_some (d T : Item) :
    sanitize_future_date (some d) T = if is_less_than_date T d then none else some d :=
  rfl

theorem sfbu_none (date : Option Item) (T : Item) :
    sanitize_future_by_updated date none T = date :=
  rfl

theorem sfbu_some (date : Option Item) (u T : Item) :
    sanitize_future_by_updated date (some u) T = if is_less_than_date T u then none else date :=
  rfl

theorem decision_none_none (u : Option Item) (T : Item) :
    decision none none u T = (T, none) := by
  cases u <;> rfl

theorem decision_none_some (d : Item) (u : Option Item) (T : Item) :
    decision none (some d) u T =
      (if is_equal_date d T then (d, none) else (d, some T)) := by
  cases u <;> rfl

theorem decision_some_none (l : Date) (u : Option Item) (T : Item) :
    decision (some l) none u T =
      (if is_equal_date (item_from_date l) T then (item_from_date l, none)
       else (item_from_date l, some T)) := by
  cases u <;> rfl

theorem decision_some_some_none (l : Date) (d : Item) (T : Item) :
    decision (some l) (some d) none T =
      (if is_less_than_or_equal_date (item_from_date l) d then (d, none) else (d, some T)) :=
  rfl

theorem decision_some_some_some (l : Date) (d u T : Item) :
    decision (some l) (some d) (some u) T =
      (if is_less_than_or_equal_date (item_from_date l) u then (d, some u) else (d, some T)) :=
  rfl

theorem dlt_irrefl (a : Date) : ¬ dlt a a := by
  simp only [dlt]; omega

theorem not_dlt_of_dle (a b : Date) : dle a b → ¬ dlt b a := by
  simp only [dle, dlt, deq]; omega

theorem dlt_not_deq (a b : Date) : dlt a b → ¬ deq a b := by
  simp only [dlt, deq]; omega

theorem date_trichotomy (a b : Date) : dlt a b ∨ deq a b ∨ dlt b a := by
  simp only [dlt, deq]; omega

theorem eq_item_refl (d : Date) :
    is_equal_date (item_from_date d) (item_from_date d) = true := by
  rw [eq_spec]; exact decide_eq_true ⟨rfl, rfl, rfl⟩

theorem eq_item_false (a b : Date) (h : ¬ deq a b) :
    is_equal_date (item_from_date a) (item_from_date b) = false := by
  rw [eq_spec]; exact decide_eq_false h

theorem lt_item_true (a b : Date) (h : dlt a b) :
    is_less_than_date (item_from_date a) (item_from_date b) = true := by
  rw [lt_spec]; exact decide_eq_true h

theorem lt_item_false (a b : Date) (h : ¬ dlt a b) :
    is_less_than_date (item_from_date a) (item_from_date b) = false := by
  rw [lt_spec]; exact decide_eq_false h

theorem le_item_true (a b : Date) (h : dle a b) :
    is_less_than_or_equal_date (item_from_date a) (item_from_date b) = true := by
  rw [le_spec]; exact decide_eq_true h

theorem le_item_false (a b : Date) (h : ¬ dle a b) :
    is_less_than_or_equal_date (item_from_date a) (item_from_date b) = false := by
  rw [le_spec]; exact decide_eq_false h

theorem good_slot_forms (v : Option Item) (hv : good_slot v = true) :
    sanitize_type v = none ∨ ∃ d, v = some (item_from_date d) ∧
      sanitize_type v = some (item_from_date d) := by
  match v with
  | none => exact Or.inl rfl
  | some Item.other => exact Or.inl rfl
  | some (Item.datetime none) => exact absurd hv (by simp [good_slot])
  | some (Item.datetime (some d)) => exact Or.inr ⟨d, rfl, rfl⟩

theorem slot_forms (v : Option Item) :
    sanitize_type v = none ∨ sanitize_type v = some (Item.datetime none) ∨
      ∃ d, sanitize_type v = some (item_from_date d) := by
  match v with
  | none => exact Or.inl rfl
  | some Item.other => exact Or.inl rfl
  | some (Item.datetime none) => exact Or.inr (Or.inl rfl)
  | some (Item.datetime (some d)) => exact Or.inr (Or.inr ⟨d, rfl⟩)

theorem sanitized_sound (org_date org_updated : Option Item) (today : Date)
    (hd : good_slot org_date = true) :
    ((sanitized org_date org_updated today).1 = none ∨
      ∃ d, (sanitized org_date org_updated today).1 = some (item_from_date d) ∧ dle d today) ∧
    (∀ d u, (sanitized org_date org_updated today).1 = some (item_from_date d) →
      (sanitized org_date org_updated today).2 = some u →
      u = Item.datetime none ∨
        ∃ ud, u = item_from_date ud ∧ dle d ud ∧ dle ud today) := by
  rw [sanitized_fst, sanitized_snd]
  rcases good_slot_forms org_date hd with h1 | ⟨d0, _, h1⟩ <;>
    rcases slot_forms org_updated with h2 | h2 | ⟨u0, h2⟩ <;>
    rw [h1, h2]
  · rw [sanitize_order_none_left, sfd_none]
    exact ⟨Or.inl rfl, fun d u hfst _ => absurd hfst (by simp [sfbu_none])⟩
  · rw [sanitize_order_none_left, sfd_none, sfbu_some,
      lt_right_not_cal (item_from_date today) (Item.datetime none) rfl, if_neg (by simp)]
    exact ⟨Or.inl rfl, fun d u hfst _ => absurd hfst (by simp)⟩
  · rw [sanitize_order_none_left, sfd_none, sfbu_some]
    constructor
    · split <;> exact Or.inl rfl
    · intro d u hfst _
      split at hfst <;> exact absurd hfst (by simp)
  · rw [sanitize_order_none_right, sfbu_none, sfd_some]
    cases h : is_less_than_date (item_from_date today) (item_from_date d0) with
    | true =>
      rw [if_pos rfl]
      exact ⟨Or.inl rfl, fun d u hfst _ => absurd hfst (by simp)⟩
    | false =>
      rw [if_neg (by simp)]
      rw [lt_spec] at h
      refine ⟨Or.inr ⟨d0, rfl, dle_total today d0 (of_decide_eq_false h)⟩, ?_⟩
      intro d u _ hsnd
      exact absurd hsnd (by simp)
  · rw [sanitize_order_some, lt_left_not_cal (Item.datetime none) (item_from_date d0) rfl,
      if_neg (by simp), sfbu_some,
      lt_right_not_cal (item_from_date today) (Item.datetime none) rfl, if_neg (by simp),
      sfd_some]
    cases h : is_less_than_date (item_from_date today) (item_from_date d0) with
    | true =>
      rw [if_pos rfl]
      exact ⟨Or.inl rfl, fun d u hfst _ => absurd hfst (by simp)⟩
    | false =>
      rw [if_neg (by simp)]
      rw [lt_spec] at h
      refine ⟨Or.inr ⟨d0, rfl, dle_total today d0 (of_decide_eq_false h)⟩, ?_⟩
      intro d u _ hsnd
      rw [Option.some.injEq] at hsnd
      exact Or.inl hsnd.symm
  · rw [sanitize_order_some]
    cases ho : is_less_than_date (item_from_date u0) (item_from_date d0) with
    | true =>
      rw [if_pos rfl, sfbu_none, sfd_some]
      cases h : is_less_than_date (item_from_date today) (item_from_date d0) with
      | true =>
        rw [if_pos rfl]
        exact ⟨Or.inl rfl, fun d u hfst _ => absurd hfst (by simp)⟩
      | false =>
        rw [if_neg (by simp)]
        rw [lt_spec] at h
        refine ⟨Or.inr ⟨d0, rfl, dle_total today d0 (of_decide_eq_false h)⟩, ?_⟩
        intro d u _ hsnd
        exact absurd hsnd (by simp)
    | false =>
      rw [if_neg (by simp), sfbu_some]
      rw [lt_spec] at ho
      have hdu : dle d0 u0 := dle_total u0 d0 (of_decide_eq_false ho)
      cases hf : is_less_than_date (item_from_date today) (item_from_date u0) with
      | true =>
        rw [if_pos rfl]
        exact ⟨Or.inl rfl, fun d u hfst _ => absurd hfst (by simp)⟩
      | false =>
        rw [if_neg (by simp)]
        rw [lt_spec] at hf
        have hut : dle u0 today := dle_total today u0 (of_decide_eq_false hf)
        rw [sfd_some]
        cases h : is_less_than_date (item_from_date today) (item_from_date d0) with
        | true =>
          rw [if_pos rfl]
          exact ⟨Or.inl rfl, fun d u hfst _ => absurd hfst (by simp)⟩
        | false =>
          rw [if_neg (by simp)]
          rw [lt_spec] at h
          refine ⟨Or.inr ⟨d0, rfl, dle_total today d0 (of_decide_eq_false h)⟩, ?_⟩
          intro d u hfst hsnd
          have hdd : deq d0 d := by
            rw [Option.some.injEq] at hfst
            exact (item_from_date_inj d0 d).mp hfst
          rw [Option.some.injEq] at hsnd
          refine Or.inr ⟨u0, hsnd.symm, ?_, hut⟩
          have : d0 = d := (deq_iff_eq d0 d).mp hdd
          subst this
          exact hdu

theorem decision_sound (last_edit : Option Date) (date updated : Option Item) (today : Date)
    (hlast : ∀ l, last_edit = some l → dle l today)
    (hdate : date = none ∨ ∃ d, date = some (item_from_date d) ∧ dle d today)
    (hboth : ∀ d u, date = some (item_from_date d) → updated = some u →
      u = Item.datetime none ∨
        ∃ ud, u = item_from_date ud ∧ dle d ud ∧ dle ud today) :
    ∃ nd, (decision last_edit date updated (item_from_date today)).1 = item_from_date nd ∧
      dle nd today ∧
      ((decision last_edit date updated (item_from_date today)).2 = none ∨
       ∃ nu, (decision last_edit date updated (item_from_date today)).2
           = some (item_from_date nu) ∧ dle nd nu ∧ dle nu today) := by
  cases last_edit with
  | none =>
    rcases hdate with hdn | ⟨d, hds, hdle⟩
    · subst hdn
      rw [decision_none_none]
      exact ⟨today, rfl, dle_refl today, Or.inl rfl⟩
    · subst hds
      rw [decision_none_some]
      cases h : is_equal_date (item_from_date d) (item_from_date today) with
      | true =>
        rw [if_pos rfl]
        exact ⟨d, rfl, hdle, Or.inl rfl⟩
      | false =>
        rw [if_neg (by simp)]
        exact ⟨d, rfl, hdle, Or.inr ⟨today, rfl, hdle, dle_refl today⟩⟩
  | some l =>
    have hl : dle l today := hlast l rfl
    rcases hdate with hdn | ⟨d, hds, hdle⟩
    · subst hdn
      rw [decision_some_none]
      cases h : is_equal_date (item_from_date l) (item_from_date today) with
      | true =>
        rw [if_pos rfl]
        exact ⟨l, rfl, hl, Or.inl rfl⟩
      | false =>
        rw [if_neg (by simp)]
        exact ⟨l, rfl, hl, Or.inr ⟨today, rfl, hl, dle_refl today⟩⟩
    · subst hds
      cases updated with
      | none =>
        rw [decision_some_some_none]
        cases h : is_less_than_or_equal_date (item_from_date l) (item_from_date d) with
        | true =>
          rw [if_pos rfl]
          exact ⟨d, rfl, hdle, Or.inl rfl⟩
        | false =>
          rw [if_neg (by simp)]
          exact ⟨d, rfl, hdle, Or.inr ⟨today, rfl, hdle, dle_refl today⟩⟩
      | some u =>
        rcases hboth d u rfl rfl with hTL | ⟨ud, hu, hdu, hut⟩
        · subst hTL
          rw [decision_some_some_some,
            le_right_not_cal (item_from_date l) (Item.datetime none) rfl, if_neg (by simp)]
          exact ⟨d, rfl, hdle, Or.inr ⟨today, rfl, hdle, dle_refl today⟩⟩
        · subst hu
          rw [decision_some_some_some]
          cases h : is_less_than_or_equal_date (item_from_date l) (item_from_date ud) with
          | true =>
            rw [if_pos rfl]
            exact ⟨d, rfl, hdle, Or.inr ⟨ud, rfl, hdu, hut⟩⟩
          | false =>
            rw [if_neg (by simp)]
            exact ⟨d, rfl, hdle, Or.inr ⟨today, rfl, hdle, dle_refl today⟩⟩

/-- C2 counterexample: a last-edit date strictly after `today` (nothing in the
reconciler or the VCS contract prevents one) is copied into `new_date`
unchanged, violating `new_date ≤ today`. -/
theorem C2_invariant_counterexample :
    (update_values (some ⟨2021, 1, 2⟩) none none ⟨2021, 1, 1⟩).new_date
      = item_from_date ⟨2021, 1, 2⟩ ∧
    is_less_than_or_equal_date
      (update_values (some ⟨2021, 1, 2⟩) none none ⟨2021, 1, 1⟩).new_date
      (item_from_date ⟨2021, 1, 1⟩) = false := by
  decide

/-- C2 amended: provided `last_edit`, when present, is not in the future, and
the existing `date` field does not hold a datetime without a date part (a
TOML local time), the output satisfies the invariant: `new_date` is a
calendar date `≤ today`, and when `new_updated` is present it is a calendar
date with `new_date ≤ new_updated ≤ today`.  The `updated` field is
unrestricted: wrong-typed and dateless values there never reach the
output. -/
theorem C2_invariant_amended (last : Option Date) (org_date org_updated : Option Item)
    (today : Date) (hlast : ∀ l, last = some l → dle l today)
    (hd : good_slot org_date = true) :
    ∃ nd, (update_values last org_date org_updated today).new_date = item_from_date nd ∧
      dle nd today ∧
      ((update_values last org_date org_updated today).new_updated = none ∨
       ∃ nu, (update_values last org_date org_updated today).new_updated
           = some (item_from_date nu) ∧ dle nd nu ∧ dle nu today) := by
  rw [update_values_new_date, update_values_new_updated]
  exact decision_sound last (sanitized org_date org_updated today).1
    (sanitized org_date org_updated today).2 today hlast
    (sanitized_sound org_date org_updated today hd).1
    (sanitized_sound org_date org_updated today hd).2

/-- Witness for the amended C2 on a committed file with no front-matter
dates. -/
theorem C2_invariant_witness :
    ∃ nd, (update_values (some ⟨2021, 1, 1⟩) none none ⟨2021, 1, 2⟩).new_date
        = item_from_date nd ∧ dle nd ⟨2021, 1, 2⟩ ∧
      ((update_values (some ⟨2021, 1, 1⟩) none none ⟨2021, 1, 2⟩).new_updated = none ∨
       ∃ nu, (update_values (some ⟨2021, 1, 1⟩) none none ⟨2021, 1, 2⟩).new_updated
           = some (item_from_date nu) ∧ dle nd nu ∧ dle nu ⟨2021, 1, 2⟩) :=
  C2_invariant_amended (some ⟨2021, 1, 1⟩) none none ⟨2021, 1, 2⟩
    (fun l hl => by injection hl with h; subst h; decide) rfl

theorem run1_shape (last : Option Date) (org_date org_updated : Option Item) (today : Date)
    (hd : good_slot org_date = true) :
    ((update_values last org_date org_updated today).new_date = item_from_date today ∧
      (update_values last org_date org_updated today).new_updated = none ∧
      (∀ l, last = some l → dle l today)) ∨
    (∃ d l, last = some l ∧
      (update_values last org_date org_updated today).new_date = item_from_date d ∧
      (update_values last org_date org_updated today).new_updated = none ∧
      dle d today ∧ dle l d) ∨
    (∃ x, (update_values last org_date org_updated today).new_date = item_from_date x ∧
      (update_values last org_date org_updated today).new_updated
        = some (item_from_date today) ∧
      (dlt x today ∨ (deq x today ∧ ∃ l, last = some l) ∨
        (dlt today x ∧ last = some x))) ∨
    (∃ d u l, last = some l ∧
      (update_values last org_date org_updated today).new_date = item_from_date d ∧
      (update_values last org_date org_updated today).new_updated = some (item_from_date u) ∧
      dle d u ∧ dle u today ∧ dle l u) := by
  rw [update_values_new_date, update_values_new_updated]
  rcases (sanitized_sound org_date org_updated today hd).1 with hs1 | ⟨d, hs1, hdt⟩
  · -- sanitized date is absent
    rw [hs1]
    cases last with
    | none =>
      rw [decision_none_none]
      exact Or.inl ⟨rfl, rfl, fun l hl => by cases hl⟩
    | some l =>
      rw [decision_some_none]
      cases he : is_equal_date (item_from_date l) (item_from_date today) with
      | true =>
        rw [if_pos rfl]
        rw [eq_spec] at he
        have : l = today := (deq_iff_eq l today).mp (of_decide_eq_true he)
        subst this
        exact Or.inl ⟨rfl, rfl, fun l2 hl2 => by injection hl2 with h; subst h; exact dle_refl l⟩
      | false =>
        rw [if_neg (by simp)]
        rw [eq_spec] at he
        have hne : ¬ deq l today := of_decide_eq_false he
        refine Or.inr (Or.inr (Or.inl ⟨l, rfl, rfl, ?_⟩))
        rcases date_trichotomy l today with h | h | h
        · exact Or.inl h
        · exact absurd h hne
        · exact Or.inr (Or.inr ⟨h, rfl⟩)
  · -- sanitized date is a calendar date d with d ≤ today
    rw [hs1]
    cases hs2 : (sanitized org_date org_updated today).2 with
    | none =>
      cases last with
      | none =>
        rw [decision_none_some]
        cases he : is_equal_date (item_from_date d) (item_from_date today) with
        | true =>
          rw [if_pos rfl]
          rw [eq_spec] at he
          have : d = today := (deq_iff_eq d today).mp (of_decide_eq_true he)
          subst this
          exact Or.inl ⟨rfl, rfl, fun l hl => by cases hl⟩
        | false =>
          rw [if_neg (by simp)]
          rw [eq_spec] at he
          have hne : ¬ deq d today := of_decide_eq_false he
          refine Or.inr (Or.inr (Or.inl ⟨d, rfl, rfl, Or.inl ?_⟩))
          rcases hdt with h | h
          · exact h
          · exact absurd h hne
      | some l =>
        rw [decision_some_some_none]
        cases hle : is_less_than_or_equal_date (item_from_date l) (item_from_date d) with
        | true =>
          rw [if_pos rfl]
          rw [le_spec] at hle
          exact Or.inr (Or.inl ⟨d, l, rfl, rfl, rfl, hdt, of_decide_eq_true hle⟩)
        | false =>
          rw [if_neg (by simp)]
          rw [le_spec] at hle
          refine Or.inr (Or.inr (Or.inl ⟨d, rfl, rfl, ?_⟩))
          rcases hdt with h | h
          · exact Or.inl h
          · exact Or.inr (Or.inl ⟨h, l, rfl⟩)
    | some u =>
      rcases (sanitized_sound org_date org_updated today hd).2 d u hs1 hs2 with
        hTL | ⟨ud, hud, hdu, hut⟩
      · subst hTL
        cases last with
        | none =>
          rw [decision_none_some]
          cases he : is_equal_date (item_from_date d) (item_from_date today) with
          | true =>
            rw [if_pos rfl]
            rw [eq_spec] at he
            have : d = today := (deq_iff_eq d today).mp (of_decide_eq_true he)
            subst this
            exact Or.inl ⟨rfl, rfl, fun l hl => by cases hl⟩
          | false =>
            rw [if_neg (by simp)]
            rw [eq_spec] at he
            have hne : ¬ deq d today := of_decide_eq_false he
            refine Or.inr (Or.inr (Or.inl ⟨d, rfl, rfl, Or.inl ?_⟩))
            rcases hdt with h | h
            · exact h
            · exact absurd h hne
        | some l =>
          rw [decision_some_some_some,
            le_right_not_cal (item_from_date l) (Item.datetime none) rfl, if_neg (by simp)]
          refine Or.inr (Or.inr (Or.inl ⟨d, rfl, rfl, ?_⟩))
          rcases hdt with h | h
          · exact Or.inl h
          · exact Or.inr (Or.inl ⟨h, l, rfl⟩)
      subst hud
      cases last with
      | none =>
        rw [decision_none_some]
        cases he : is_equal_date (item_from_date d) (item_from_date today) with
        | true =>
          rw [if_pos rfl]
          rw [eq_spec] at he
          have : d = today := (deq_iff_eq d today).mp (of_decide_eq_true he)
          subst this
          exact Or.inl ⟨rfl, rfl, fun l hl => by cases hl⟩
        | false =>
          rw [if_neg (by simp)]
          rw [eq_spec] at he
          have hne : ¬ deq d today := of_decide_eq_false he
          refine Or.inr (Or.inr (Or.inl ⟨d, rfl, rfl, Or.inl ?_⟩))
          rcases hdt with h | h
          · exact h
          · exact absurd h hne
      | some l =>
        rw [decision_some_some_some]
        cases hle : is_less_than_or_equal_date (item_from_date l) (item_from_date ud) with
        | true =>
          rw [if_pos rfl]
          rw [le_spec] at hle
          exact Or.inr (Or.inr (Or.inr
            ⟨d, ud, l, rfl, rfl, rfl, hdu, hut, of_decide_eq_true hle⟩))
        | false =>
          rw [if_neg (by simp)]
          rw [le_spec] at hle
          refine Or.inr (Or.inr (Or.inl ⟨d, rfl, rfl, ?_⟩))
          rcases hdt with h | h
          · exact Or.inl h
          · exact Or.inr (Or.inl ⟨h, l, rfl⟩)

theorem sanitize_type_none : sanitize_type none = none :=
  rfl

theorem deq_of_dlt_rev (a b : Date) : dlt a b → ¬ deq b a := by
  simp only [dlt, deq]; omega

theorem changed_eq_false_of_same (r : Reconciled) (h : r.is_new_same_as_org = true) :
    r.changed = false := by
  unfold Reconciled.changed
  rw [h]
  rfl

theorem shape1_stable (last : Option Date) (today : Date)
    (hlast : ∀ l, last = some l → dle l today) :
    (update_values last (some (item_from_date today)) none today).new_date
      = item_from_date today ∧
    (update_values last (some (item_from_date today)) none today).new_updated = none ∧
    (update_values last (some (item_from_date today)) none today).is_new_same_as_org = true := by
  have hs1 : (sanitized (some (item_from_date today)) none today).1
      = some (item_from_date today) := by
    rw [sanitized_fst, sanitize_type_date, sanitize_type_none, sanitize_order_none_right,
      sfbu_none, sfd_some, lt_item_false today today (dlt_irrefl today), if_neg (by simp)]
  have hs2 : (sanitized (some (item_from_date today)) none today).2 = none := by
    rw [sanitized_snd, sanitize_type_date, sanitize_type_none, sanitize_order_none_right]
  have hdec : decision last (some (item_from_date today)) none (item_from_date today)
      = (item_from_date today, none) := by
    cases last with
    | none => rw [decision_none_some, eq_item_refl, if_pos rfl]
    | some l => rw [decision_some_some_none, le_item_true l today (hlast l rfl), if_pos rfl]
  have hnd : (update_values last (some (item_from_date today)) none today).new_date
      = item_from_date today := by
    rw [update_values_new_date, hs1, hs2, hdec]
  have hnu : (update_values last (some (item_from_date today)) none today).new_updated
      = none := by
    rw [update_values_new_updated, hs1, hs2, hdec]
  refine ⟨hnd, hnu, ?_⟩
  rw [update_values_same, hnd, hnu]
  exact (same_as_org_spec _ _ _ _).mpr
    ⟨⟨item_from_date today, rfl, eq_item_refl today⟩, Or.inl ⟨rfl, rfl⟩⟩

theorem shape3_stable (l d today : Date) (h1 : dle d today) (h2 : dle l d) :
    (update_values (some l) (some (item_from_date d)) none today).new_date
      = item_from_date d ∧
    (update_values (some l) (some (item_from_date d)) none today).new_updated = none ∧
    (update_values (some l) (some (item_from_date d)) none today).is_new_same_as_org = true := by
  have hs1 : (sanitized (some (item_from_date d)) none today).1
      = some (item_from_date d) := by
    rw [sanitized_fst, sanitize_type_date, sanitize_type_none, sanitize_order_none_right,
      sfbu_none, sfd_some, lt_item_false today d (not_dlt_of_dle d today h1), if_neg (by simp)]
  have hs2 : (sanitized (some (item_from_date d)) none today).2 = none := by
    rw [sanitized_snd, sanitize_type_date, sanitize_type_none, sanitize_order_none_right]
  have hdec : decision (some l) (some (item_from_date d)) none (item_from_date today)
      = (item_from_date d, none) := by
    rw [decision_some_some_none, le_item_true l d h2, if_pos rfl]
  have hnd : (update_values (some l) (some (item_from_date d)) none today).new_date
      = item_from_date d := by
    rw [update_values_new_date, hs1, hs2, hdec]
  have hnu : (update_values (some l) (some (item_from_date d)) none today).new_updated
      = none := by
    rw [update_values_new_updated, hs1, hs2, hdec]
  refine ⟨hnd, hnu, ?_⟩
  rw [update_values_same, hnd, hnu]
  exact (same_as_org_spec _ _ _ _).mpr
    ⟨⟨item_from_date d, rfl, eq_item_refl d⟩, Or.inl ⟨rfl, rfl⟩⟩

theorem shape4_stable (l d u today : Date) (h1 : dle d u) (h2 : dle u today)
    (h3 : dle l u) (h4 : dle d today) :
    (update_values (some l) (some (item_from_date d)) (some (item_from_date u))
        today).new_date = item_from_date d ∧
    (update_values (some l) (some (item_from_date d)) (some (item_from_date u))
        today).new_updated = some (item_from_date u) ∧
    (update_values (some l) (some (item_from_date d)) (some (item_from_date u))
        today).is_new_same_as_org = true := by
  have hs2 : (sanitized (some (item_from_date d)) (some (item_from_date u)) today).2
      = some (item_from_date u) := by
    rw [sanitized_snd, sanitize_type_date, sanitize_type_date, sanitize_order_some,
      lt_item_false u d (not_dlt_of_dle d u h1), if_neg (by simp)]
  have hs1 : (sanitized (some (item_from_date d)) (some (item_from_date u)) today).1
      = some (item_from_date d) := by
    rw [sanitized_fst, sanitize_type_date, sanitize_type_date, sanitize_order_some,
      lt_item_false u d (not_dlt_of_dle d u h1), if_neg (by simp), sfbu_some,
      lt_item_false today u (not_dlt_of_dle u today h2), if_neg (by simp), sfd_some,
      lt_item_false today d (not_dlt_of_dle d today h4), if_neg (by simp)]
  have hdec : decision (some l) (some (item_from_date d)) (some (item_from_date u))
      (item_from_date today) = (item_from_date d, some (item_from_date u)) := by
    rw [decision_some_some_some, le_item_true l u h3, if_pos rfl]
  have hnd : (update_values (some l) (some (item_from_date d)) (some (item_from_date u))
      today).new_date = item_from_date d := by
    rw [update_values_new_date, hs1, hs2, hdec]
  have hnu : (update_values (some l) (some (item_from_date d)) (some (item_from_date u))
      today).new_updated = some (item_from_date u) := by
    rw [update_values_new_updated, hs1, hs2, hdec]
  refine ⟨hnd, hnu, ?_⟩
  rw [update_values_same, hnd, hnu]
  exact (same_as_org_spec _ _ _ _).mpr
    ⟨⟨item_from_date d, rfl, eq_item_refl d⟩,
     Or.inr ⟨item_from_date u, item_from_date u, rfl, rfl, eq_item_refl u⟩⟩

theorem shape2_stable (last : Option Date) (x today : Date)
    (hx : dlt x today ∨ (deq x today ∧ ∃ l, last = some l) ∨
      (dlt today x ∧ last = some x)) :
    (update_values last (some (item_from_date x)) (some (item_from_date today))
        today).new_date = item_from_date x ∧
    (update_values last (some (item_from_date x)) (some (item_from_date today))
        today).new_updated = some (item_from_date today) ∧
    (update_values last (some (item_from_date x)) (some (item_from_date today))
        today).is_new_same_as_org = true := by
  have hsame : same_as_org (some (item_from_date x)) (some (item_from_date today))
      (item_from_date x) (some (item_from_date today)) = true :=
    (same_as_org_spec _ _ _ _).mpr
      ⟨⟨item_from_date x, rfl, eq_item_refl x⟩,
       Or.inr ⟨item_from_date today, item_from_date today, rfl, rfl, eq_item_refl today⟩⟩
  rcases hx with hA | ⟨hB, l, hBl⟩ | ⟨hC, hCl⟩
  · -- strictly past date
    have hxt : dle x today := Or.inl hA
    have hs2 : (sanitized (some (item_from_date x)) (some (item_from_date today)) today).2
        = some (item_from_date today) := by
      rw [sanitized_snd, sanitize_type_date, sanitize_type_date, sanitize_order_some,
        lt_item_false today x (not_dlt_of_dle x today hxt), if_neg (by simp)]
    have hs1 : (sanitized (some (item_from_date x)) (some (item_from_date today)) today).1
        = some (item_from_date x) := by
      rw [sanitized_fst, sanitize_type_date, sanitize_type_date, sanitize_order_some,
        lt_item_false today x (not_dlt_of_dle x today hxt), if_neg (by simp), sfbu_some,
        lt_item_false today today (dlt_irrefl today), if_neg (by simp), sfd_some,
        lt_item_false today x (not_dlt_of_dle x today hxt), if_neg (by simp)]
    have hdec : decision last (some (item_from_date x)) (some (item_from_date today))
        (item_from_date today) = (item_from_date x, some (item_from_date today)) := by
      cases last with
      | none =>
        rw [decision_none_some, eq_item_false x today (dlt_not_deq x today hA),
          if_neg (by simp)]
      | some l =>
        rw [decision_some_some_some]
        cases hle : is_less_than_or_equal_date (item_from_date l) (item_from_date today) with
        | true => rw [if_pos rfl]
        | false => rw [if_neg (by simp)]
    have hnd : (update_values last (some (item_from_date x)) (some (item_from_date today))
        today).new_date = item_from_date x := by
      rw [update_values_new_date, hs1, hs2, hdec]
    have hnu : (update_values last (some (item_from_date x)) (some (item_from_date today))
        today).new_updated = some (item_from_date today) := by
      rw [update_values_new_updated, hs1, hs2, hdec]
    refine ⟨hnd, hnu, ?_⟩
    rw [update_values_same, hnd, hnu]
    exact hsame
  · -- date equal to today, committed in the future
    have hxe : x = today := (deq_iff_eq x today).mp hB
    subst hxe
    subst hBl
    have hs2 : (sanitized (some (item_from_date x)) (some (item_from_date x)) x).2
        = some (item_from_date x) := by
      rw [sanitized_snd, sanitize_type_date, sanitize_order_some,
        lt_item_false x x (dlt_irrefl x), if_neg (by simp)]
    have hs1 : (sanitized (some (item_from_date x)) (some (item_from_date x)) x).1
        = some (item_from_date x) := by
      rw [sanitized_fst, sanitize_type_date, sanitize_order_some,
        lt_item_false x x (dlt_irrefl x), if_neg (by simp), sfbu_some,
        lt_item_false x x (dlt_irrefl x), if_neg (by simp), sfd_some,
        lt_item_false x x (dlt_irrefl x), if_neg (by simp)]
    have hdec : decision (some l) (some (item_from_date x)) (some (item_from_date x))
        (item_from_date x) = (item_from_date x, some (item_from_date x)) := by
      rw [decision_some_some_some, ite_self]
    have hnd : (update_values (some l) (some (item_from_date x)) (some (item_from_date x))
        x).new_date = item_from_date x := by
      rw [update_values_new_date, hs1, hs2, hdec]
    have hnu : (update_values (some l) (some (item_from_date x)) (some (item_from_date x))
        x).new_updated = some (item_from_date x) := by
      rw [update_values_new_updated, hs1, hs2, hdec]
    refine ⟨hnd, hnu, ?_⟩
    rw [update_values_same, hnd, hnu]
    exact (same_as_org_spec _ _ _ _).mpr
      ⟨⟨item_from_date x, rfl, eq_item_refl x⟩,
       Or.inr ⟨item_from_date x, item_from_date x, rfl, rfl, eq_item_refl x⟩⟩
  · -- future date, which was itself the future last-edit date
    subst hCl
    have hs2 : (sanitized (some (item_from_date x)) (some (item_from_date today)) today).2
        = none := by
      rw [sanitized_snd, sanitize_type_date, sanitize_type_date, sanitize_order_some,
        lt_item_true today x hC, if_pos rfl]
    have hs1 : (sanitized (some (item_from_date x)) (some (item_from_date today)) today).1
        = none := by
      rw [sanitized_fst, sanitize_type_date, sanitize_type_date, sanitize_order_some,
        lt_item_true today x hC, if_pos rfl, sfbu_none, sfd_some,
        lt_item_true today x hC, if_pos rfl]
    have hdec : decision (some x) (none : Option Item) (none : Option Item)
        (item_from_date today) = (item_from_date x, some (item_from_date today)) := by
      rw [decision_some_none, eq_item_false x today (fun hq => deq_of_dlt_rev today x hC hq),
        if_neg (by simp)]
    have hnd : (update_values (some x) (some (item_from_date x)) (some (item_from_date today))
        today).new_date = item_from_date x := by
      rw [update_values_new_date, hs1, hs2, hdec]
    have hnu : (update_values (some x) (some (item_from_date x)) (some (item_from_date today))
        today).new_updated = some (item_from_date today) := by
      rw [update_values_new_updated, hs1, hs2, hdec]
    refine ⟨hnd, hnu, ?_⟩
    rw [update_values_same, hnd, hnu]
    exact hsame

/-- C3 counterexample: with `existing_date` holding a TOML datetime without a
date part (a local time), the first run reproduces that value as `new_date`,
and feeding the output pair back in still reports a change, because the
calendar-equality used by change detection is false on dateless values. -/
theorem C3_idempotence_counterexample :
    (update_values none (some (Item.datetime none)) none ⟨2021, 1, 1⟩).new_date
      = Item.datetime none ∧
    (update_values none (some (Item.datetime none)) none ⟨2021, 1, 1⟩).new_updated
      = some (item_from_date ⟨2021, 1, 1⟩) ∧
    (update_values none
      (some ((update_values none (some (Item.datetime none)) none ⟨2021, 1, 1⟩).new_date))
      ((update_values none (some (Item.datetime none)) none ⟨2021, 1, 1⟩).new_updated)
      ⟨2021, 1, 1⟩).changed = true := by
  decide

/-- C3 amended: idempotence holds for every input whose `date` slot does not
hold a datetime value without a date part (a TOML local time): feeding the
reconciler's own output back in, with the same `last_edit` and `today`,
reproduces the pair and reports `changed = false`.  The `updated` slot is
unrestricted. -/
theorem C3_idempotence_amended (last : Option Date) (org_date org_updated : Option Item)
    (today : Date) (hd : good_slot org_date = true)
    (nd : Item) (nu : Option Item)
    (hnd : (update_values last org_date org_updated today).new_date = nd)
    (hnu : (update_values last org_date org_updated today).new_updated = nu) :
    (update_values last (some nd) nu today).new_date = nd ∧
    (update_values last (some nd) nu today).new_updated = nu ∧
    (update_values last (some nd) nu today).changed = false := by
  subst hnd
  subst hnu
  rcases run1_shape last org_date org_updated today hd with
    ⟨h1, h2, h3⟩ | ⟨d, l, hl, h1, h2, h3, h4⟩ | ⟨x, h1, h2, hx⟩ |
    ⟨d, u, l, hl, h1, h2, h3, h4, h5⟩
  · rw [h1, h2]
    obtain ⟨a, b, c⟩ := shape1_stable last today h3
    exact ⟨a, b, changed_eq_false_of_same _ c⟩
  · rw [h1, h2]
    subst hl
    obtain ⟨a, b, c⟩ := shape3_stable l d today h3 h4
    exact ⟨a, b, changed_eq_false_of_same _ c⟩
  · rw [h1, h2]
    obtain ⟨a, b, c⟩ := shape2_stable last x today hx
    exact ⟨a, b, changed_eq_false_of_same _ c⟩
  · rw [h1, h2]
    subst hl
    obtain ⟨a, b, c⟩ := shape4_stable l d u today h3 h4 h5 (dle_trans d u today h3 h4)
    exact ⟨a, b, changed_eq_false_of_same _ c⟩

/-- Witness for the amended C3 on Scenario B of the spec. -/
theorem C3_idempotence_witness :
    (update_values none (some (item_from_date ⟨2021, 5, 1⟩))
        (some (item_from_date ⟨2021, 6, 1⟩)) ⟨2021, 6, 1⟩).new_date
      = item_from_date ⟨2021, 5, 1⟩ ∧
    (update_values none (some (item_from_date ⟨2021, 5, 1⟩))
        (some (item_from_date ⟨2021, 6, 1⟩)) ⟨2021, 6, 1⟩).new_updated
      = some (item_from_date ⟨2021, 6, 1⟩) ∧
    (update_values none (some (item_from_date ⟨2021, 5, 1⟩))
        (some (item_from_date ⟨2021, 6, 1⟩)) ⟨2021, 6, 1⟩).changed = false :=
  C3_idempotence_amended none (some (item_from_date ⟨2021, 5, 1⟩)) none ⟨2021, 6, 1⟩
    rfl (item_from_date ⟨2021, 5, 1⟩) (some (item_from_date ⟨2021, 6, 1⟩))
    (by decide) (by decide)
